import Mathlib

/-!
# Verification of the deep-research-mcp recursive research engine

This file gives a shallow embedding, in Lean 4, of the core recursive
research orchestration engine of the `deep-research-mcp` repository
(`src/deep-research.ts`), and proves or refutes the frozen claims about it.

Modelling conventions, documented once here:

* JavaScript numbers that only ever hold scores/priorities in `[0,1]`/`[1,5]`
  and are only compared, clamped, or copied are modelled as `Rat` (exact
  rationals).  The source never performs float-specific arithmetic on them
  (the only operations are `Math.max`, `Math.min`, comparisons and copies),
  so `Rat` is a faithful model at every input we quantify over.
* `breadth` and `depth` are modelled as `Nat` (the MCP server validates them
  as integers in `[1,5]`, `src/mcp-server.ts` lines 188-189).
  `Math.ceil(breadth / 2)` on a natural number is `(breadth + 1) / 2` in
  `Nat` division; `depth - 1` on `Nat` agrees with JS on `depth ≥ 1`, and
  for `depth = 0` both sides make the recursion guard `newDepth > 0` false.
* The external collaborators (the structured-generation LLM calls, the
  Firecrawl search, the URL parser builtin and the tokenizer-based
  `trimPrompt` from `src/ai/providers.ts`) are opaque to the core and are
  modelled as an explicit environment `Env` of total functions returning
  `Except String α` where the source call can throw.  Fallible JS calls are
  thus `Except`; try/catch is an explicit `match`.
* `async`/`await` with the `p-limit` concurrency limiter: the dispatched
  units are awaited with `Promise.all`, whose result array is in dispatch
  order regardless of completion order.  The model runs the dispatch units
  sequentially in dispatch order; every data value that flows into the
  final result is deterministic in that order, so this is faithful for the
  claims proved here (none of them concern completion-order races).
* JS object identity: `new Set` deduplicates *objects* by reference, not by
  value.  Freshly allocated objects are modelled by tagging them with an
  allocation id (`JsObj`), drawn from a counter threaded through the model
  (`SState.nextId`).  Two model values are equal iff the JS references are
  the same object, because every allocation gets a fresh id.
* A ghost counter `SState.plannedQueries` counts how many queries the
  planner has returned over the whole run (instrumentation only; no control
  flow reads it).  It is incremented right after each successful
  `generateSerpQueries` call by the length of the returned list.
* Logging (`logToFile`, `OutputManager`) and the observational progress
  callback (`onProgress`/`reportProgress`) have no effect on any returned
  data and are omitted from the model.
-/

deriving instance DecidableEq for Except

namespace DeepResearchMcp

/-- A planned SERP query, as produced by `generateSerpQueries`
(`deep-research.ts` lines 135-158): the zod schema fields `query`,
`researchGoal`, `reliabilityThreshold`, `isVerificationQuery`,
`relatedDirection`. -/
structure SerpQuery where
  query : String
  researchGoal : String
  reliabilityThreshold : Rat
  isVerificationQuery : Bool
  relatedDirection : Option String
deriving DecidableEq, Repr

/-- A prioritized follow-up research direction (`deep-research.ts` lines
80-84). -/
structure ResearchDirection where
  question : String
  priority : Rat
  parentGoal : Option String
deriving DecidableEq, Repr

/-- Per-document source metadata (`deep-research.ts` lines 56-64).
The fields `publishDate` and `relevanceScore` are always set to
`undefined` by the source (lines 261, 263) and are therefore omitted. -/
structure SourceMetadata where
  url : String
  title : Option String
  domain : String
  reliabilityScore : Rat
  reliabilityReasoning : String
deriving DecidableEq, Repr

/-- A learning weighted by model-reported confidence
(`deep-research.ts` lines 75-78). -/
structure LearningWithReliability where
  content : String
  reliability : Rat
deriving DecidableEq, Repr

/-- A JS heap object holding a value of type `α`: `objId` is the allocation
identity.  `Set` membership on objects compares references, which the model
renders as equality of `JsObj` values (fresh allocations always receive a
fresh `objId`). -/
structure JsObj (α : Type) where
  objId : Nat
  val : α
deriving DecidableEq, Repr

/-- One item of a Firecrawl search response as consumed by the core:
`url`, `markdown` and `title`, each possibly absent. -/
structure SearchItem where
  url : Option String
  markdown : Option String
  title : Option String
deriving DecidableEq, Repr

/-- One learning in the learning-synthesis response
(`deep-research.ts` lines 311-316). -/
structure SynthLearning where
  content : String
  confidence : Rat
  sources : List String
deriving DecidableEq, Repr

/-- One follow-up question in the learning-synthesis response
(`deep-research.ts` lines 318-323). -/
structure SynthFollowUp where
  question : String
  priority : Rat
  reason : String
deriving DecidableEq, Repr

/-- The learning-synthesis response object (`deep-research.ts` lines
310-330).  The `sourceQuality` field is returned by the schema but never
read by the core after the call, so it is omitted. -/
structure SynthOutput where
  learnings : List SynthLearning
  followUpQuestions : List SynthFollowUp
deriving DecidableEq, Repr

/-- The external collaborators, as an explicit environment.

* `genQueries`: the structured-generation call inside `generateSerpQueries`
  (lines 109-159).  Receives what the prompt is built from: the topic, the
  prior learnings with their reliabilities, the requested maximum number of
  queries and the prior research directions.  May fail (the JS call throws).
* `search`: `firecrawl.search` (line 489); arguments: query text and result
  limit.  May fail or time out.
* `hostname`: `new URL(url).hostname` (line 256); throws on invalid URLs.
* `evalReliability`: the generation call inside `evaluateSourceReliability`
  (lines 188-216); arguments: domain and topic context; returns score and
  reasoning.
* `trim`: `trimPrompt` from `src/ai/providers.ts` (content, size); it
  defers to an external tokenizer and text splitter, and is total.
* `synth`: the learning-synthesis generation call (lines 292-331);
  arguments: the query, the reliability-annotated contents that the prompt
  is built from (in prompt order), `numLearnings`, `numFollowUpQuestions`
  and the research goal.  May fail or time out (60s abort signal). -/
structure Env where
  genQueries : String → List String → List Rat → Nat → List ResearchDirection →
    Except String (List SerpQuery)
  search : String → Nat → Except String (List SearchItem)
  hostname : String → Except String String
  evalReliability : String → String → Except String (Rat × String)
  trim : String → Nat → String
  synth : String → List (String × SourceMetadata) → Nat → Nat → String →
    Except String SynthOutput

/-- `Math.max(0, Math.min(1, x))` (`deep-research.ts` line 164). -/
def clampThreshold (x : Rat) : Rat := max 0 (min 1 x)

/-- `generateSerpQueries` (`deep-research.ts` lines 86-182): one structured
generation call, then each returned query has its `reliabilityThreshold`
clamped into `[0,1]`.  The source applies no truncation to the number of
returned queries; the `numQueries` bound only appears in the prompt text
given to the collaborator. -/
def generateSerpQueries (env : Env) (query : String) (learnings : List String)
    (learningReliabilities : List Rat) (numQueries : Nat)
    (researchDirections : List ResearchDirection) : Except String (List SerpQuery) := do
  let res ← env.genQueries query learnings learningReliabilities numQueries researchDirections
  pure (res.map fun q => { q with reliabilityThreshold := clampThreshold q.reliabilityThreshold })

/-- The metadata construction for one search item (`deep-research.ts` lines
253-270): items without a URL yield `null`; a URL-parse failure or a
reliability-evaluation failure is caught per item and yields `null`; the
`null`s are then dropped by `compact`.  `item.title || undefined` maps an
absent or empty title to `undefined`. -/
def mkSourceMetadata (env : Env) (query : String) (item : SearchItem) :
    Option SourceMetadata :=
  match item.url with
  | none => none
  | some u =>
    (do
      let domain ← env.hostname u
      let sr ← env.evalReliability domain query
      pure { url := u
             title := match item.title with
                      | some "" => none
                      | t => t
             domain := domain
             reliabilityScore := sr.1
             reliabilityReasoning := sr.2 } : Except String SourceMetadata).toOption

/-- `contents` (`deep-research.ts` lines 248-250): the compacted markdown
bodies, each passed through `trimPrompt(·, 25_000)`. -/
def contentsOf (env : Env) (result : List SearchItem) : List String :=
  (result.filterMap (·.markdown)).map (fun c => env.trim c 25000)

/-- `sourceMetadata` (`deep-research.ts` lines 253-272). -/
def metasOf (env : Env) (query : String) (result : List SearchItem) :
    List SourceMetadata :=
  result.filterMap (mkSourceMetadata env query)

/-- `contentWithMetadata` (`deep-research.ts` lines 276-281): contents are
joined with metadata *by index*, and entries whose index has no metadata
are dropped. -/
def contentWithMetadata (contents : List String) (sourceMetadata : List SourceMetadata) :
    List (String × SourceMetadata) :=
  contents.enum.filterMap fun p => (sourceMetadata.get? p.1).map (fun m => (p.2, m))

/-- Stable insertion sort: `a` is placed before the first element `b` with
`le a b`.  Elements that compare equal keep their original relative order,
so for a consistent comparator this computes the unique stable sorted
permutation — the function ECMAScript guarantees for
`Array.prototype.sort`. -/
def insertByRel (le : α → α → Bool) (a : α) : List α → List α
  | [] => [a]
  | b :: l => if le a b then a :: b :: l else b :: insertByRel le a l

/-- Stable sort by the comparator-induced relation `le` (see
`insertByRel`). -/
def sortByRel (le : α → α → Bool) : List α → List α
  | [] => []
  | a :: l => insertByRel le a (sortByRel le l)

/-- The in-place `Array.prototype.sort` at `deep-research.ts` line 285 with
comparator `(a, b) => b.metadata.reliabilityScore - a.metadata.reliabilityScore`:
a stable sort in descending order of `reliabilityScore`.  After this line
the array bound to `contentWithMetadata` is itself sorted (JS `sort`
mutates), so the synthesis prompt at lines 305-309 iterates the sorted
array. -/
def sortedByReliability (l : List (String × SourceMetadata)) :
    List (String × SourceMetadata) :=
  sortByRel (fun a b => decide (b.2.reliabilityScore ≤ a.2.reliabilityScore)) l

/-- `sortedContents` (`deep-research.ts` lines 284-287): the sorted list
filtered to `reliabilityScore ≥ reliabilityThreshold`, projected to the
content strings.  In the source this value is computed and then never
used. -/
def sortedContents (l : List (String × SourceMetadata)) (reliabilityThreshold : Rat) :
    List String :=
  ((sortedByReliability l).filter fun x =>
    decide (reliabilityThreshold ≤ x.2.reliabilityScore)).map (·.1)

/-- The reliability-annotated contents the learning-synthesis prompt is
built from (`deep-research.ts` lines 305-309): the (sorted, unfiltered)
`contentWithMetadata` array. -/
def synthPromptContents (env : Env) (query : String) (result : List SearchItem) :
    List (String × SourceMetadata) :=
  sortedByReliability (contentWithMetadata (contentsOf env result) (metasOf env query result))

/-- Threaded mutable state of the model: `nextId` is the JS allocation
counter backing `JsObj` identities; `plannedQueries` is a ghost counter of
how many queries all planner calls have returned so far (instrumentation
for the query-budget claim; nothing in the model reads it). -/
structure SState where
  nextId : Nat
  plannedQueries : Nat
deriving DecidableEq, Repr

/-- The fields of the `processSerpResult` return value that the caller
reads (`deep-research.ts` lines 342-350). -/
structure ProcessedResult where
  learnings : List String
  learningConfidences : List Rat
  followUpQuestions : List String
  followUpPriorities : List Rat
  sourceMetadata : List SourceMetadata
  weightedLearnings : List (JsObj LearningWithReliability)
deriving DecidableEq, Repr

/-- `processSerpResult` (`deep-research.ts` lines 224-352).

The synthesis call receives the sorted but *unfiltered* annotated contents
(`synthPromptContents`); the filtered `sortedContents` value of lines
284-287 is computed by the source and then never used, so it does not
appear in the data flow here.  `weightedLearnings` allocates one fresh
object per synthesized learning (line 334), modelled by consuming fresh
ids from `SState.nextId`.  Follow-up questions are truncated to
`numFollowUpQuestions` (line 340); learnings are not truncated. -/
def processSerpResult (env : Env) (query : String) (result : List SearchItem)
    (numLearnings numFollowUpQuestions : Nat) (reliabilityThreshold : Rat)
    (researchGoal : String) (s : SState) :
    Except String (ProcessedResult × SState) := do
  let _deadSortedContents := sortedContents
    (contentWithMetadata (contentsOf env result) (metasOf env query result))
    reliabilityThreshold
  let out ← env.synth query (synthPromptContents env query result)
    numLearnings numFollowUpQuestions researchGoal
  let weighted : List (JsObj LearningWithReliability) :=
    out.learnings.enum.map fun p =>
      { objId := s.nextId + p.1, val := { content := p.2.content, reliability := p.2.confidence } }
  let limitedFollowUps := out.followUpQuestions.take numFollowUpQuestions
  pure
    ({ learnings := weighted.map (·.val.content)
       learningConfidences := weighted.map (·.val.reliability)
       followUpQuestions := limitedFollowUps.map (·.question)
       followUpPriorities := limitedFollowUps.map (·.priority)
       sourceMetadata := metasOf env query result
       weightedLearnings := weighted },
     { s with nextId := s.nextId + out.learnings.length })

/-- The `BranchResult` shape returned by every `deepResearch` call
(`deep-research.ts` lines 448-454). -/
structure BranchResult where
  learnings : List String
  learningReliabilities : List Rat
  visitedUrls : List String
  sourceMetadata : List SourceMetadata
  weightedLearnings : List (JsObj LearningWithReliability)
deriving DecidableEq, Repr

/-- The empty branch result produced by the per-query catch handler
(`deep-research.ts` lines 574-580). -/
def emptyBranchResult : BranchResult :=
  { learnings := [], learningReliabilities := [], visitedUrls := []
    sourceMetadata := [], weightedLearnings := [] }

/-- `[...new Set(xs)]` for values compared by SameValueZero (strings,
numbers) or by reference (`JsObj`): keeps the first occurrence of each
element, in first-seen order.  `seen` is the set built so far. -/
def jsSetDedupAux [DecidableEq α] (seen : List α) : List α → List α
  | [] => []
  | a :: l => if a ∈ seen then jsSetDedupAux seen l else a :: jsSetDedupAux (a :: seen) l

/-- `[...new Set(xs)]` (`deep-research.ts` lines 587-589, 602). -/
def jsSetDedup [DecidableEq α] (l : List α) : List α := jsSetDedupAux [] l

/-- `map.set(k, v)` on a JS `Map` kept as an insertion-ordered association
list: an existing key keeps its position and has its value overwritten; a
new key is appended. -/
def jsMapSet (m : List (String × SourceMetadata)) (k : String) (v : SourceMetadata) :
    List (String × SourceMetadata) :=
  if m.any (fun p => p.1 = k) then m.map (fun p => if p.1 = k then (k, v) else p)
  else m ++ [(k, v)]

/-- One step of the reduce at `deep-research.ts` lines 594-599:
`if (meta?.url) map.set(meta.url, meta)` — a falsy (empty) URL is
skipped. -/
def urlStep (m : List (String × SourceMetadata)) (meta : SourceMetadata) :
    List (String × SourceMetadata) :=
  if meta.url = "" then m else jsMapSet m meta.url meta

/-- The URL-keyed dedup of `sourceMetadata` in the merge step
(`deep-research.ts` lines 591-601): fold the flattened metadata into a
`Map` keyed by URL, then take the map's values in insertion order. -/
def urlDedup (l : List SourceMetadata) : List SourceMetadata :=
  (l.foldl urlStep []).map (·.2)

/-- `combinedResults` (`deep-research.ts` lines 586-603): the merge of all
branch results. -/
def combineResults (rs : List BranchResult) : BranchResult :=
  { learnings := jsSetDedup ((rs.map (·.learnings)).flatten)
    learningReliabilities := jsSetDedup ((rs.map (·.learningReliabilities)).flatten)
    visitedUrls := jsSetDedup ((rs.map (·.visitedUrls)).flatten)
    sourceMetadata := urlDedup ((rs.map (·.sourceMetadata)).flatten)
    weightedLearnings := jsSetDedup ((rs.map (·.weightedLearnings)).flatten) }

/-- The arguments of one `deepResearch` call other than `depth`
(`deep-research.ts` lines 426-447); `onProgress` is observational and
omitted. -/
structure ResearchInput where
  query : String
  breadth : Nat
  learnings : List String
  learningReliabilities : List Rat
  visitedUrls : List String
  weightedLearnings : List (JsObj LearningWithReliability)
  researchDirections : List ResearchDirection
  sourceMetadata : List SourceMetadata
deriving DecidableEq, Repr

/-- JS `String.prototype.trim`: strip whitespace from both ends
(implemented structurally over the character list so that it computes in
the kernel; the template being trimmed only carries ASCII whitespace at
its ends). -/
def jsTrim (s : String) : String :=
  ⟨((s.data.dropWhile Char.isWhitespace).reverse.dropWhile Char.isWhitespace).reverse⟩

/-- The child query string for the recursive call (`deep-research.ts`
lines 533-536): a template folding in the parent query's research goal and
the follow-up questions, whitespace-trimmed. -/
def nextQueryText (researchGoal : String) (followUpQuestions : List String) : String :=
  jsTrim ("Previous research goal: " ++ researchGoal ++
    "\nFollow-up research directions: " ++
    String.join (followUpQuestions.map (fun q => "\n" ++ q)))

/-- The research directions handed to the child planner
(`deep-research.ts` lines 547-551).  `followUpPriorities[i] || 3` defaults
both a missing and a zero (falsy) priority to 3. -/
def followUpDirections (researchGoal : String) (pr : ProcessedResult) :
    List ResearchDirection :=
  pr.followUpQuestions.enum.map fun p =>
    { question := p.2
      priority := match pr.followUpPriorities.get? p.1 with
                  | some q => if q = 0 then 3 else q
                  | none => 3
      parentGoal := some researchGoal }

/-- `incrementPlanned s n` records that a planner call returned `n`
queries (ghost instrumentation). -/
def incrementPlanned (s : SState) (n : Nat) : SState :=
  { s with plannedQueries := s.plannedQueries + n }

/-- The body of one dispatch unit's `try` block (`deep-research.ts` lines
488-567): search, process, then either recurse (`newDepth > 0`) via the
supplied `recurse` continuation — which `deepResearch` instantiates with
itself at depth `depth - 1` — or return the accumulated branch result.
Any `.error` escaping this definition is the exception the `catch` at line
568 receives. -/
def attemptBranch (env : Env)
    (recurse : ResearchInput → SState → Except String (BranchResult × SState))
    (depth : Nat) (inp : ResearchInput) (q : SerpQuery) (s : SState) :
    Except String (BranchResult × SState) := do
  let items ← env.search q.query (if q.isVerificationQuery then 8 else 5)
  let newUrls := items.filterMap (·.url)
  let newBreadth := (inp.breadth + 1) / 2
  let newDepth := depth - 1
  let (pr, s₁) ← processSerpResult env q.query items 3 newBreadth
    q.reliabilityThreshold q.researchGoal s
  let allLearnings := inp.learnings ++ pr.learnings
  let allUrls := inp.visitedUrls ++ newUrls
  let allSourceMetadata := inp.sourceMetadata ++ pr.sourceMetadata
  let allWeighted := inp.weightedLearnings ++ pr.weightedLearnings
  if 0 < newDepth then
    recurse
      { query := nextQueryText q.researchGoal pr.followUpQuestions
        breadth := newBreadth
        learnings := allLearnings
        learningReliabilities := pr.learningConfidences
        visitedUrls := allUrls
        weightedLearnings := allWeighted
        researchDirections := followUpDirections q.researchGoal pr
        sourceMetadata := allSourceMetadata } s₁
  else
    pure
      ({ learnings := allLearnings
         learningReliabilities := pr.learningConfidences
         visitedUrls := allUrls
         sourceMetadata := allSourceMetadata
         weightedLearnings := allWeighted }, s₁)

/-- One dispatch unit including its `catch` handler (`deep-research.ts`
lines 568-581): an error from search, processing, or the recursive call is
converted into the empty branch result; the state reverts to the state
before the attempt (allocations of a failed branch are unreachable, and no
planner call inside a failed attempt can have succeeded, since an error
can only arise before or at the child's planning step). -/
def runQuery (env : Env)
    (recurse : ResearchInput → SState → Except String (BranchResult × SState))
    (depth : Nat) (inp : ResearchInput) (q : SerpQuery) (s : SState) :
    BranchResult × SState :=
  match attemptBranch env recurse depth inp q s with
  | .ok r => r
  | .error _ => (emptyBranchResult, s)

/-- The `Promise.all(serpQueries.map(...))` fan-out (`deep-research.ts`
lines 485-584), sequentialized in dispatch order (the result array of
`Promise.all` is in dispatch order). -/
def runQueries (env : Env)
    (recurse : ResearchInput → SState → Except String (BranchResult × SState))
    (depth : Nat) (inp : ResearchInput) :
    List SerpQuery → SState → List BranchResult × SState
  | [], s => ([], s)
  | q :: qs, s =>
    let rs₁ := runQuery env recurse depth inp q s
    let rs₂ := runQueries env recurse depth inp qs rs₁.2
    (rs₁.1 :: rs₂.1, rs₂.2)

/-- The body of `deepResearch` at one tree level (`deep-research.ts` lines
469-605): plan (this call is *not* inside any try/catch — its error
propagates to the caller), dispatch every planned query, merge.  The
`recurse` continuation is what the dispatch units call for `newDepth > 0`
branches. -/
def researchRound (env : Env)
    (recurse : ResearchInput → SState → Except String (BranchResult × SState))
    (depth : Nat) (inp : ResearchInput) (s : SState) :
    Except String (BranchResult × SState) := do
  let serpQueries ← generateSerpQueries env inp.query inp.learnings
    inp.learningReliabilities inp.breadth inp.researchDirections
  let s₀ := incrementPlanned s serpQueries.length
  let rs := runQueries env recurse depth inp serpQueries s₀
  pure (combineResults rs.1, rs.2)

/-- The recursion continuation `deepResearch` uses at a given depth: at
depth `d + 1` the recursive call (`deep-research.ts` line 538) runs at
depth `d`; at depth `0` the guard `newDepth > 0` is false at every
dispatch unit, so the continuation is never invoked (any stand-in works;
an erroring one makes accidental use visible). -/
def deepResearch (env : Env) :
    Nat → ResearchInput → SState → Except String (BranchResult × SState)
  | 0 => researchRound env (fun _ _ => .error "unreachable: no recursion at depth 0") 0
  | depth + 1 => researchRound env (deepResearch env depth) (depth + 1)

/-- The continuation `deepResearch env depth` passes to `researchRound`. -/
def recurseAt (env : Env) :
    Nat → ResearchInput → SState → Except String (BranchResult × SState)
  | 0 => fun _ _ => .error "unreachable: no recursion at depth 0"
  | depth + 1 => deepResearch env depth

theorem deepResearch_eq (env : Env) (depth : Nat) :
    deepResearch env depth = researchRound env (recurseAt env depth) depth := by
  cases depth <;> rfl

/-! ## Projections used to state claims about `Except`-valued runs -/

/-- The planner result's query list (`[]` on a thrown planning call). -/
def plannerQueries (r : Except String (List SerpQuery)) : List SerpQuery :=
  match r with
  | .ok l => l
  | .error _ => []

/-- The learnings field of a `processSerpResult` outcome. -/
def processedLearnings (r : Except String (ProcessedResult × SState)) : List String :=
  match r with
  | .ok p => p.1.learnings
  | .error _ => []

/-- The follow-up questions field of a `processSerpResult` outcome. -/
def processedFollowUps (r : Except String (ProcessedResult × SState)) : List String :=
  match r with
  | .ok p => p.1.followUpQuestions
  | .error _ => []

/-- The learnings of a `deepResearch` outcome. -/
def researchLearnings (r : Except String (BranchResult × SState)) : List String :=
  match r with
  | .ok p => p.1.learnings
  | .error _ => []

/-- The learning reliabilities of a `deepResearch` outcome. -/
def researchReliabilities (r : Except String (BranchResult × SState)) : List Rat :=
  match r with
  | .ok p => p.1.learningReliabilities
  | .error _ => []

/-- The ghost planned-queries counter after a run (for a thrown run, the
counter it started from: a planner throw happens before the planner
returned any queries). -/
def plannedAfter (r : Except String (BranchResult × SState)) (s : SState) : Nat :=
  match r with
  | .ok p => p.2.plannedQueries
  | .error _ => s.plannedQueries

/-! ## Properties of the JS `Set` spread dedup -/

section DedupLemmas

variable {α : Type} [DecidableEq α]

theorem mem_jsSetDedupAux (x : α) :
    ∀ (l seen : List α), x ∈ jsSetDedupAux seen l ↔ x ∈ l ∧ x ∉ seen
  | [], seen => by simp [jsSetDedupAux]
  | a :: l, seen => by
    by_cases h : a ∈ seen
    · rw [jsSetDedupAux, if_pos h, mem_jsSetDedupAux x l seen, List.mem_cons]
      constructor
      · exact fun hx => ⟨Or.inr hx.1, hx.2⟩
      · rintro ⟨hx | hx, hs⟩
        · exact absurd (hx ▸ h) hs
        · exact ⟨hx, hs⟩
    · rw [jsSetDedupAux, if_neg h, List.mem_cons, List.mem_cons,
        mem_jsSetDedupAux x l (a :: seen)]
      constructor
      · rintro (rfl | ⟨hx, hs⟩)
        · exact ⟨Or.inl rfl, h⟩
        · exact ⟨Or.inr hx, fun c => hs (List.mem_cons_of_mem a c)⟩
      · rintro ⟨rfl | hx, hs⟩
        · exact Or.inl rfl
        · by_cases hxa : x = a
          · exact Or.inl hxa
          · exact Or.inr ⟨hx, by simp [List.mem_cons, hxa, hs]⟩

theorem mem_jsSetDedup (x : α) (l : List α) : x ∈ jsSetDedup l ↔ x ∈ l := by
  simp [jsSetDedup, mem_jsSetDedupAux]

theorem nodup_jsSetDedupAux : ∀ (l seen : List α), (jsSetDedupAux seen l).Nodup
  | [], _ => by simp [jsSetDedupAux]
  | a :: l, seen => by
    by_cases h : a ∈ seen
    · rw [jsSetDedupAux, if_pos h]
      exact nodup_jsSetDedupAux l seen
    · rw [jsSetDedupAux, if_neg h, List.nodup_cons]
      refine ⟨fun c => ?_, nodup_jsSetDedupAux l (a :: seen)⟩
      exact ((mem_jsSetDedupAux a l (a :: seen)).1 c).2 (List.mem_cons_self a seen)

theorem nodup_jsSetDedup (l : List α) : (jsSetDedup l).Nodup :=
  nodup_jsSetDedupAux l []

/-- Spec-side definition, following §4.5 of the specification verbatim:
"concatenate across branches then deduplicate by value equality (exact
string/struct match) preserving first-seen order" — keep each element's
first occurrence, in encounter order.  Used to state the refinement of the
merge step's dedup. -/
def dedupFirstSeen (l : List α) : List α :=
  l.foldl (fun acc a => if a ∈ acc then acc else acc ++ [a]) []

theorem jsSetDedupAux_eq_foldl :
    ∀ (l seen acc : List α), (∀ x, x ∈ seen ↔ x ∈ acc) →
      acc ++ jsSetDedupAux seen l =
        l.foldl (fun acc a => if a ∈ acc then acc else acc ++ [a]) acc
  | [], seen, acc, _ => by simp [jsSetDedupAux]
  | a :: l, seen, acc, h => by
    by_cases ha : a ∈ seen
    · rw [jsSetDedupAux, if_pos ha, List.foldl_cons, if_pos ((h a).1 ha)]
      exact jsSetDedupAux_eq_foldl l seen acc h
    · rw [jsSetDedupAux, if_neg ha, List.foldl_cons, if_neg (fun c => ha ((h a).2 c))]
      have h2 : ∀ x, x ∈ a :: seen ↔ x ∈ acc ++ [a] := by
        intro x
        simp only [List.mem_cons, List.mem_append, List.mem_singleton, h x]
        tauto
      calc acc ++ a :: jsSetDedupAux (a :: seen) l
          = (acc ++ [a]) ++ jsSetDedupAux (a :: seen) l := by simp
        _ = _ := jsSetDedupAux_eq_foldl l (a :: seen) (acc ++ [a]) h2

/-- The JS `[...new Set(xs)]` dedup is exactly the spec's "deduplicate
preserving first-seen order" — for whatever equality `Set` membership uses
on the element type (value for strings/numbers, reference for objects). -/
theorem jsSetDedup_eq_dedupFirstSeen (l : List α) : jsSetDedup l = dedupFirstSeen l := by
  simpa using jsSetDedupAux_eq_foldl l [] [] (by simp)

end DedupLemmas

/-! ## Properties of the URL-keyed `Map` dedup of the merge step -/

/-- Keys of the model of the JS `Map` (an insertion-ordered association
list). -/
def keysOf (m : List (String × SourceMetadata)) : List String := m.map (·.1)

/-- The values stored under key `k` (a singleton or empty list when the
keys are distinct). -/
def entryFor (m : List (String × SourceMetadata)) (k : String) : List SourceMetadata :=
  (m.filter (fun p => p.1 = k)).map (·.2)

theorem keysOf_jsMapSet_of_any (m : List (String × SourceMetadata)) (k : String)
    (v : SourceMetadata) (h : m.any (fun p => p.1 = k) = true) :
    keysOf (jsMapSet m k v) = keysOf m := by
  rw [jsMapSet, if_pos h, keysOf, List.map_map, keysOf]
  refine List.map_congr_left fun p _ => ?_
  by_cases hp : p.1 = k <;> simp [hp]

theorem keysOf_nodup_jsMapSet (m : List (String × SourceMetadata)) (k : String)
    (v : SourceMetadata) (hnd : (keysOf m).Nodup) : (keysOf (jsMapSet m k v)).Nodup := by
  by_cases h : m.any (fun p => p.1 = k) = true
  · rw [keysOf_jsMapSet_of_any m k v h]
    exact hnd
  · rw [jsMapSet, if_neg h, keysOf, List.map_append]
    rw [List.nodup_append]
    refine ⟨hnd, List.nodup_singleton k, fun x hx hk => ?_⟩
    simp only [List.map_cons, List.map_nil, List.mem_singleton] at hk
    subst hk
    apply h
    rw [List.any_eq_true]
    obtain ⟨p, hp, hpk⟩ := List.mem_map.1 hx
    exact ⟨p, hp, by simp [hpk]⟩

theorem filter_map_replace_ne (m : List (String × SourceMetadata)) (u k : String)
    (v : SourceMetadata) (h : u ≠ k) :
    (m.map (fun p => if p.1 = u then (u, v) else p)).filter (fun p => decide (p.1 = k))
      = m.filter (fun p => decide (p.1 = k)) := by
  induction m with
  | nil => rfl
  | cons p m ih =>
    rw [List.map_cons, List.filter_cons, List.filter_cons]
    by_cases hp : p.1 = u
    · rw [if_pos hp]
      rw [if_neg (by simp [h]), if_neg (by simp [hp, h])]
      exact ih
    · rw [if_neg hp]
      by_cases hk : p.1 = k
      · rw [if_pos (by simp [hk]), if_pos (by simp [hk]), ih]
      · rw [if_neg (by simp [hk]), if_neg (by simp [hk])]
        exact ih

theorem entryFor_jsMapSet_ne (m : List (String × SourceMetadata)) (u k : String)
    (v : SourceMetadata) (h : u ≠ k) : entryFor (jsMapSet m u v) k = entryFor m k := by
  by_cases hany : m.any (fun p => p.1 = u) = true
  · rw [jsMapSet, if_pos hany, entryFor, entryFor, filter_map_replace_ne m u k v h]
  · rw [jsMapSet, if_neg hany, entryFor, List.filter_append, entryFor]
    have hone : List.filter (fun p => decide (p.1 = k)) [(u, v)] = [] := by
      simp [List.filter_cons, h]
    rw [hone, List.append_nil]

theorem entryFor_eq_nil_of_not_any (m : List (String × SourceMetadata)) (k : String)
    (h : ¬ m.any (fun p => p.1 = k) = true) : entryFor m k = [] := by
  rw [entryFor, List.map_eq_nil_iff, List.filter_eq_nil_iff]
  intro p hp
  simp only [decide_eq_true_eq]
  intro hpk
  exact h (List.any_eq_true.2 ⟨p, hp, by simp [hpk]⟩)

theorem filter_map_replace_self (m : List (String × SourceMetadata)) (k : String)
    (v : SourceMetadata) (hnd : (keysOf m).Nodup)
    (hany : m.any (fun p => p.1 = k) = true) :
    (m.map (fun p => if p.1 = k then (k, v) else p)).filter (fun p => decide (p.1 = k))
      = [(k, v)] := by
  induction m with
  | nil => simp at hany
  | cons p m ih =>
    rw [keysOf, List.map_cons, List.nodup_cons] at hnd
    rw [List.map_cons, List.filter_cons]
    by_cases hp : p.1 = k
    · have hnone : ∀ q ∈ m, ¬ q.1 = k := by
        intro q hq hqk
        exact hnd.1 (hp ▸ hqk ▸ List.mem_map_of_mem (·.1) hq)
      have hid : List.map (fun p => if p.1 = k then (k, v) else p) m = m := by
        conv_rhs => rw [← List.map_id m]
        refine List.map_congr_left fun q hq => ?_
        simp [hnone q hq]
      rw [if_pos hp, if_pos (by simp), hid]
      have hnil : m.filter (fun p => decide (p.1 = k)) = [] := by
        rw [List.filter_eq_nil_iff]
        intro q hq
        simp [hnone q hq]
      rw [hnil]
    · have hany' : m.any (fun p => p.1 = k) = true := by
        rcases List.any_eq_true.1 hany with ⟨q, hq, hqk⟩
        rcases List.mem_cons.1 hq with rfl | hq'
        · simp [hp] at hqk
        · exact List.any_eq_true.2 ⟨q, hq', hqk⟩
      rw [if_neg hp, if_neg (by simp [hp])]
      exact ih hnd.2 hany'

theorem entryFor_jsMapSet_self (m : List (String × SourceMetadata)) (k : String)
    (v : SourceMetadata) (hnd : (keysOf m).Nodup) : entryFor (jsMapSet m k v) k = [v] := by
  by_cases hany : m.any (fun p => p.1 = k) = true
  · rw [jsMapSet, if_pos hany, entryFor, filter_map_replace_self m k v hnd hany]
    rfl
  · rw [jsMapSet, if_neg hany, entryFor, List.filter_append, List.map_append]
    have h1 : entryFor m k = [] := entryFor_eq_nil_of_not_any m k hany
    rw [entryFor] at h1
    rw [h1]
    simp

theorem keysOf_nodup_foldUrl :
    ∀ (l : List SourceMetadata) (m : List (String × SourceMetadata)),
      (keysOf m).Nodup → (keysOf (l.foldl urlStep m)).Nodup
  | [], _, h => h
  | meta :: l, m, h => by
    rw [List.foldl_cons]
    refine keysOf_nodup_foldUrl l _ ?_
    rw [urlStep]
    split
    · exact h
    · exact keysOf_nodup_jsMapSet m meta.url meta h

theorem vals_inv_jsMapSet (m : List (String × SourceMetadata)) (k : String)
    (v : SourceMetadata) (hv : v.url = k) (hinv : ∀ p ∈ m, p.2.url = p.1) :
    ∀ p ∈ jsMapSet m k v, p.2.url = p.1 := by
  intro p hp
  rw [jsMapSet] at hp
  split at hp
  · obtain ⟨q, hq, hqe⟩ := List.mem_map.1 hp
    by_cases hqk : q.1 = k
    · simp only [if_pos hqk] at hqe
      rw [← hqe]
      exact hv
    · simp only [if_neg hqk] at hqe
      exact hqe ▸ hinv q hq
  · rcases List.mem_append.1 hp with hl | hr
    · exact hinv p hl
    · rw [List.mem_singleton] at hr
      rw [hr]
      exact hv

theorem vals_inv_foldUrl :
    ∀ (l : List SourceMetadata) (m : List (String × SourceMetadata)),
      (∀ p ∈ m, p.2.url = p.1) → ∀ p ∈ l.foldl urlStep m, p.2.url = p.1
  | [], _, h => h
  | meta :: l, m, h => by
    rw [List.foldl_cons]
    refine vals_inv_foldUrl l _ ?_
    rw [urlStep]
    split
    · exact h
    · exact vals_inv_jsMapSet m meta.url meta rfl h

theorem entryFor_foldUrl_of_not_mem :
    ∀ (l : List SourceMetadata) (m : List (String × SourceMetadata)) (k : String),
      (∀ x ∈ l, x.url ≠ k) → entryFor (l.foldl urlStep m) k = entryFor m k
  | [], _, _, _ => rfl
  | meta :: l, m, k, h => by
    rw [List.foldl_cons,
      entryFor_foldUrl_of_not_mem l _ k (fun x hx => h x (List.mem_cons_of_mem meta hx))]
    rw [urlStep]
    split
    · rfl
    · exact entryFor_jsMapSet_ne m meta.url k meta (h meta (List.mem_cons_self meta l))

theorem values_filter_eq_entryFor (m : List (String × SourceMetadata)) (k : String)
    (hinv : ∀ p ∈ m, p.2.url = p.1) :
    (m.map (·.2)).filter (fun x => x.url = k) = entryFor m k := by
  simp only [entryFor]
  induction m with
  | nil => rfl
  | cons p m ih =>
    have hp := hinv p (List.mem_cons_self p m)
    rw [List.map_cons, List.filter_cons, List.filter_cons]
    by_cases hk : p.1 = k
    · rw [if_pos (by simp [hp, hk]), if_pos (by simp [hk]), List.map_cons,
        ih fun q hq => hinv q (List.mem_cons_of_mem p hq)]
    · rw [if_neg (by simp [hp, hk]), if_neg (by simp [hk])]
      exact ih fun q hq => hinv q (List.mem_cons_of_mem p hq)

/-- Last-seen-wins for the URL-keyed dedup: if `meta` is the last element
with URL `k` in the flattened metadata list, the dedup output contains
exactly the entry `meta` for `k`. -/
theorem urlDedup_last_wins (pre post : List SourceMetadata) (meta : SourceMetadata)
    (k : String) (hurl : meta.url = k) (hk : k ≠ "")
    (hpost : ∀ x ∈ post, x.url ≠ k) :
    (urlDedup (pre ++ meta :: post)).filter (fun x => x.url = k) = [meta] := by
  rw [urlDedup,
    values_filter_eq_entryFor _ k (vals_inv_foldUrl _ [] (by simp)),
    List.foldl_append, List.foldl_cons]
  have hstep : urlStep (pre.foldl urlStep []) meta =
      jsMapSet (pre.foldl urlStep []) k meta := by
    rw [urlStep, if_neg (hurl ▸ hk), hurl]
  rw [hstep, entryFor_foldUrl_of_not_mem post _ k hpost,
    entryFor_jsMapSet_self _ k meta (keysOf_nodup_foldUrl pre [] (by simp [keysOf]))]

/-! ## Behaviour of one research round -/

theorem researchRound_ok (env : Env)
    (R : ResearchInput → SState → Except String (BranchResult × SState))
    (depth : Nat) (inp : ResearchInput) (s : SState) (qs : List SerpQuery)
    (hq : generateSerpQueries env inp.query inp.learnings inp.learningReliabilities
      inp.breadth inp.researchDirections = .ok qs) :
    researchRound env R depth inp s =
      .ok (combineResults (runQueries env R depth inp qs (incrementPlanned s qs.length)).1,
           (runQueries env R depth inp qs (incrementPlanned s qs.length)).2) := by
  unfold researchRound
  rw [hq]
  rfl

theorem researchRound_error (env : Env)
    (R : ResearchInput → SState → Except String (BranchResult × SState))
    (depth : Nat) (inp : ResearchInput) (s : SState) (msg : String)
    (hq : generateSerpQueries env inp.query inp.learnings inp.learningReliabilities
      inp.breadth inp.researchDirections = .error msg) :
    researchRound env R depth inp s = .error msg := by
  unfold researchRound
  rw [hq]
  rfl

theorem runQueries_append (env : Env)
    (R : ResearchInput → SState → Except String (BranchResult × SState))
    (depth : Nat) (inp : ResearchInput) (l1 l2 : List SerpQuery) (s : SState) :
    runQueries env R depth inp (l1 ++ l2) s =
      ((runQueries env R depth inp l1 s).1 ++
        (runQueries env R depth inp l2 (runQueries env R depth inp l1 s).2).1,
       (runQueries env R depth inp l2 (runQueries env R depth inp l1 s).2).2) := by
  induction l1 generalizing s with
  | nil => simp [runQueries]
  | cons q l1 ih =>
    rw [List.cons_append]
    simp only [runQueries]
    rw [ih]
    rfl

theorem runQueries_cons_fail (env : Env)
    (R : ResearchInput → SState → Except String (BranchResult × SState))
    (depth : Nat) (inp : ResearchInput) (q : SerpQuery) (qs : List SerpQuery)
    (s : SState) (msg : String)
    (hfail : attemptBranch env R depth inp q s = .error msg) :
    runQueries env R depth inp (q :: qs) s =
      (emptyBranchResult :: (runQueries env R depth inp qs s).1,
       (runQueries env R depth inp qs s).2) := by
  simp only [runQueries, runQuery, hfail]

theorem runQueries_all_fail (env : Env)
    (R : ResearchInput → SState → Except String (BranchResult × SState))
    (depth : Nat) (inp : ResearchInput) (qs : List SerpQuery) (s : SState)
    (h : ∀ q ∈ qs, ∀ t, ∃ msg, attemptBranch env R depth inp q t = .error msg) :
    runQueries env R depth inp qs s = (List.replicate qs.length emptyBranchResult, s) := by
  induction qs generalizing s with
  | nil => rfl
  | cons q qs ih =>
    obtain ⟨msg, hmsg⟩ := h q (List.mem_cons_self q qs) s
    rw [runQueries_cons_fail env R depth inp q qs s msg hmsg,
      ih s (fun q' hq' t => h q' (List.mem_cons_of_mem q hq') t),
      List.length_cons, List.replicate_succ]

/-! ## Behaviour of the merge -/

theorem mem_combineResults_learnings (rs : List BranchResult) (r : BranchResult)
    (hr : r ∈ rs) (x : String) (hx : x ∈ r.learnings) :
    x ∈ (combineResults rs).learnings := by
  rw [combineResults]
  rw [mem_jsSetDedup]
  rw [List.mem_flatten]
  exact ⟨r.learnings, List.mem_map.2 ⟨r, hr, rfl⟩, hx⟩

theorem combineResults_all_empty (rs : List BranchResult)
    (h : ∀ r ∈ rs, r = emptyBranchResult) : combineResults rs = emptyBranchResult := by
  have hfield : ∀ {β : Type} (f : BranchResult → List β), f emptyBranchResult = [] →
      (rs.map f).flatten = [] := by
    intro β f hf
    rw [List.flatten_eq_nil_iff]
    intro l hl
    obtain ⟨r, hr, rfl⟩ := List.mem_map.1 hl
    rw [h r hr, hf]
  rw [combineResults,
    hfield (·.learnings) rfl, hfield (·.learningReliabilities) rfl,
    hfield (·.visitedUrls) rfl, hfield (·.sourceMetadata) rfl,
    hfield (·.weightedLearnings) rfl]
  rfl

/-! ## Concrete inputs used by witnesses and counterexamples -/

/-- Initial state: no allocations, no planned queries. -/
def sInit : SState := { nextId := 0, plannedQueries := 0 }

/-- A research input with empty accumulators, query `"topic"` and the
given breadth (a fresh top-level call). -/
def topicInput (breadth : Nat) : ResearchInput :=
  { query := "topic", breadth := breadth, learnings := [], learningReliabilities := []
    visitedUrls := [], weightedLearnings := [], researchDirections := [], sourceMetadata := [] }

/-! ## C2 — reliability filtering before learning synthesis -/

/-- Two retrieved documents: contents `"c1"` (domain `a`) and `"c2"`
(domain `b`). -/
def itemsC2 : List SearchItem :=
  [ { url := some "https://a/", markdown := some "c1", title := none },
    { url := some "https://b/", markdown := some "c2", title := none } ]

/-- Environment for the C2 run: domain `a` scores 0.8, domain `b` scores
0.2; the probe synthesis collaborator echoes every content it receives
back as a learning, making the received contents observable in the
output.  Collaborators that the run never reaches reply with errors. -/
def envC2 : Env :=
  { genQueries := fun _ _ _ _ _ => .error "unused"
    search := fun _ _ => .error "unused"
    hostname := fun u =>
      if u = "https://a/" then .ok "a"
      else if u = "https://b/" then .ok "b"
      else .error "bad URL"
    evalReliability := fun d _ =>
      if d = "a" then .ok (mkRat 4 5, "strong editorial standards")
      else .ok (mkRat 1 5, "personal blog")
    trim := fun c _ => c
    synth := fun _ contents _ _ _ =>
      .ok { learnings := contents.map fun p =>
              { content := p.1, confidence := 1, sources := [] }
            followUpQuestions := [] } }

/-- **C2** (code-bug evidence, `processSerpResult`): with one document
scored 0.8, one scored 0.2 and `reliabilityThreshold = 0.5`, the filtered
list `sortedContents` that the source computes at lines 284-287 is
`["c1"]`, but that value is never used: the learning-synthesis call
receives the sorted *unfiltered* contents `["c1", "c2"]`, so the 0.2
document's content reaches the synthesis call (the probe collaborator
echoes the received contents, and both come back as learnings). -/
theorem c2_sub_threshold_content_reaches_synthesis :
    sortedContents
        (contentWithMetadata (contentsOf envC2 itemsC2) (metasOf envC2 "q" itemsC2))
        (mkRat 1 2) = ["c1"]
    ∧ (synthPromptContents envC2 "q" itemsC2).map (·.1) = ["c1", "c2"]
    ∧ processedLearnings (processSerpResult envC2 "q" itemsC2 3 3 (mkRat 1 2) "" sInit)
        = ["c1", "c2"] := by
  refine ⟨?_, ?_, ?_⟩ <;> decide

/-! ## C3 — merge-step URL dedup is last-seen-wins -/

/-- **C3**: in the merge step of `deepResearch`, `sourceMetadata` is
deduplicated by URL: whenever `meta` is the last entry carrying `url` in
the flattened branch metadata (in branch order), the merged result
contains exactly one entry for `url`, namely `meta`. -/
theorem c3_sourceMetadata_last_seen_wins (rs : List BranchResult)
    (pre post : List SourceMetadata) (meta : SourceMetadata) (url : String)
    (hurl : meta.url = url) (hne : url ≠ "")
    (hflat : (rs.map (·.sourceMetadata)).flatten = pre ++ meta :: post)
    (hpost : ∀ x ∈ post, x.url ≠ url) :
    (combineResults rs).sourceMetadata.filter (fun x => x.url = url) = [meta] := by
  have hsrc : (combineResults rs).sourceMetadata
      = urlDedup ((rs.map (·.sourceMetadata)).flatten) := rfl
  rw [hsrc, hflat]
  exact urlDedup_last_wins pre post meta url hurl hne hpost

/-- Branch metadata scored 0.9 for URL `https://u/`. -/
def metaHi : SourceMetadata :=
  { url := "https://u/", title := none, domain := "u"
    reliabilityScore := mkRat 9 10, reliabilityReasoning := "peer reviewed" }

/-- Branch metadata scored 0.3 for the same URL `https://u/`. -/
def metaLo : SourceMetadata :=
  { url := "https://u/", title := none, domain := "u"
    reliabilityScore := mkRat 3 10, reliabilityReasoning := "low reliability" }

/-- A branch result carrying only the given source metadata. -/
def metaOnlyBranch (m : SourceMetadata) : BranchResult :=
  { learnings := [], learningReliabilities := [], visitedUrls := []
    sourceMetadata := [m], weightedLearnings := [] }

/-- Witness for C3: a 0.9-scored entry merged before a 0.3-scored entry
for the same URL — the merged metadata for that URL is exactly the 0.3
entry (last seen wins, not the higher score). -/
theorem c3_witness :
    metaLo.url = "https://u/"
    ∧ "https://u/" ≠ ""
    ∧ ([metaOnlyBranch metaHi, metaOnlyBranch metaLo].map (·.sourceMetadata)).flatten
        = [metaHi] ++ metaLo :: []
    ∧ (combineResults [metaOnlyBranch metaHi, metaOnlyBranch metaLo]).sourceMetadata.filter
        (fun x => x.url = "https://u/") = [metaLo] :=
  ⟨rfl, by decide, rfl,
    c3_sourceMetadata_last_seen_wins [metaOnlyBranch metaHi, metaOnlyBranch metaLo]
      [metaHi] [] metaLo "https://u/" rfl (by decide) rfl (by simp)⟩

/-! ## C6 — planner output is not truncated to maxQueries -/

/-- A fixed planner query whose threshold 2 exceeds the valid range (to
exercise clamping). -/
def qC6 : SerpQuery :=
  { query := "q1", researchGoal := "g", reliabilityThreshold := 2
    isVerificationQuery := false, relatedDirection := none }

/-- Environment whose generation collaborator always returns two queries,
regardless of the requested maximum. -/
def envC6 : Env :=
  { genQueries := fun _ _ _ _ _ => .ok [qC6, qC6]
    search := fun _ _ => .error "unused"
    hostname := fun _ => .error "unused"
    evalReliability := fun _ _ => .error "unused"
    trim := fun c _ => c
    synth := fun _ _ _ _ _ => .error "unused" }

/-- **C6** (counterexample): asked for at most 1 query, the planner passes
through the collaborator's 2 queries — `generateSerpQueries` applies no
truncation, so it can return more than `maxQueries`. -/
theorem c6_counterexample :
    ¬ (plannerQueries (generateSerpQueries envC6 "topic" [] [] 1 [])).length ≤ 1 := by
  decide

/-- **C6** (amended): `generateSerpQueries` returns exactly as many
queries as the generation collaborator returns — so the `maxQueries` bound
holds precisely when the collaborator respects the instruction in its
prompt — and every returned query's `reliabilityThreshold` is clamped into
`[0, 1]`. -/
theorem c6_amended (env : Env) (query : String) (ls : List String) (lrs : List Rat)
    (n : Nat) (dirs : List ResearchDirection) (qs : List SerpQuery)
    (h : env.genQueries query ls lrs n dirs = .ok qs) :
    (plannerQueries (generateSerpQueries env query ls lrs n dirs)).length = qs.length
    ∧ (qs.length ≤ n →
        (plannerQueries (generateSerpQueries env query ls lrs n dirs)).length ≤ n)
    ∧ ∀ q' ∈ plannerQueries (generateSerpQueries env query ls lrs n dirs),
        0 ≤ q'.reliabilityThreshold ∧ q'.reliabilityThreshold ≤ 1 := by
  have hg : generateSerpQueries env query ls lrs n dirs
      = .ok (qs.map fun q => { q with reliabilityThreshold := clampThreshold q.reliabilityThreshold }) := by
    unfold generateSerpQueries
    rw [h]
    rfl
  rw [hg]
  refine ⟨by simp [plannerQueries], fun hn => by simpa [plannerQueries] using hn, ?_⟩
  intro q' hq'
  simp only [plannerQueries, List.mem_map] at hq'
  obtain ⟨q, _, rfl⟩ := hq'
  exact ⟨le_max_left 0 _, max_le (by norm_num) (min_le_left 1 _)⟩

/-- Witness for the amended C6: the collaborator returns 2 queries with
`maxQueries = 2`; the planner returns exactly those 2, with the
out-of-range threshold 2 clamped to 1. -/
theorem c6_amended_witness :
    envC6.genQueries "topic" [] [] 2 [] = .ok [qC6, qC6]
    ∧ (plannerQueries (generateSerpQueries envC6 "topic" [] [] 2 [])).length = 2
    ∧ ∀ q' ∈ plannerQueries (generateSerpQueries envC6 "topic" [] [] 2 []),
        0 ≤ q'.reliabilityThreshold ∧ q'.reliabilityThreshold ≤ 1 :=
  ⟨rfl, (c6_amended envC6 "topic" [] [] 2 [] [qC6, qC6] rfl).1,
    (c6_amended envC6 "topic" [] [] 2 [] [qC6, qC6] rfl).2.2⟩

/-! ## C7 — learnings are not truncated; follow-ups are -/

/-- The synthesis output used by the C7 runs: two learnings and three
follow-up questions. -/
def outC7 : SynthOutput :=
  { learnings := [ { content := "a", confidence := 1, sources := [] },
                   { content := "b", confidence := 1, sources := [] } ]
    followUpQuestions := [ { question := "f1", priority := 1, reason := "r" },
                           { question := "f2", priority := 2, reason := "r" },
                           { question := "f3", priority := 3, reason := "r" } ] }

/-- Environment whose learning-synthesis collaborator always over-returns
(`outC7`). -/
def envC7 : Env :=
  { genQueries := fun _ _ _ _ _ => .error "unused"
    search := fun _ _ => .error "unused"
    hostname := fun _ => .error "unused"
    evalReliability := fun _ _ => .error "unused"
    trim := fun c _ => c
    synth := fun _ _ _ _ _ => .ok outC7 }

/-- **C7** (counterexample): with `numLearnings = 1` and a collaborator
returning two learnings, `processSerpResult` returns both — the claimed
hard truncation of learnings does not exist. -/
theorem c7_counterexample :
    ¬ (processedLearnings (processSerpResult envC7 "q" [] 1 1 0 "" sInit)).length ≤ 1 := by
  decide

/-- **C7** (amended): `processSerpResult` hard-truncates the follow-up
questions to at most `numFollowUpQuestions` after the call, but passes the
collaborator's learnings through untruncated: it returns exactly as many
learnings as the collaborator returned, so the `numLearnings` bound holds
only when the collaborator respects its prompt. -/
theorem c7_amended (env : Env) (query : String) (result : List SearchItem)
    (nL nF : Nat) (thr : Rat) (goal : String) (s : SState) :
    (processedFollowUps (processSerpResult env query result nL nF thr goal s)).length ≤ nF
    ∧ ∀ out, env.synth query (synthPromptContents env query result) nL nF goal = .ok out →
        (processedLearnings (processSerpResult env query result nL nF thr goal s)).length
          = out.learnings.length := by
  cases hsy : env.synth query (synthPromptContents env query result) nL nF goal with
  | error msg =>
    have hres : processSerpResult env query result nL nF thr goal s = .error msg := by
      unfold processSerpResult
      rw [hsy]
      rfl
    refine ⟨by rw [hres]; simp [processedFollowUps], fun out hout => ?_⟩
    exact Except.noConfusion hout
  | ok out =>
    have hres : processSerpResult env query result nL nF thr goal s = .ok
        ({ learnings := (out.learnings.enum.map fun p =>
             (⟨s.nextId + p.1, ⟨p.2.content, p.2.confidence⟩⟩ : JsObj LearningWithReliability)).map
               (·.val.content)
           learningConfidences := (out.learnings.enum.map fun p =>
             (⟨s.nextId + p.1, ⟨p.2.content, p.2.confidence⟩⟩ : JsObj LearningWithReliability)).map
               (·.val.reliability)
           followUpQuestions := (out.followUpQuestions.take nF).map (·.question)
           followUpPriorities := (out.followUpQuestions.take nF).map (·.priority)
           sourceMetadata := metasOf env query result
           weightedLearnings := out.learnings.enum.map fun p =>
             ⟨s.nextId + p.1, ⟨p.2.content, p.2.confidence⟩⟩ },
         { s with nextId := s.nextId + out.learnings.length }) := by
      unfold processSerpResult
      rw [hsy]
      rfl
    refine ⟨?_, fun out' hout => ?_⟩
    · rw [hres]
      simp [processedFollowUps, List.length_take]
    · obtain rfl : out = out' := Except.ok.inj hout
      rw [hres]
      simp [processedLearnings]

/-- Witness for the amended C7: at `numLearnings = numFollowUpQuestions
= 1` with the over-returning collaborator, follow-ups come back truncated
to 1 while both learnings pass through. -/
theorem c7_amended_witness :
    envC7.synth "q" (synthPromptContents envC7 "q" []) 1 1 "" = .ok outC7
    ∧ (processedFollowUps (processSerpResult envC7 "q" [] 1 1 0 "" sInit)).length ≤ 1
    ∧ (processedLearnings (processSerpResult envC7 "q" [] 1 1 0 "" sInit)).length
        = outC7.learnings.length :=
  ⟨rfl, (c7_amended envC7 "q" [] 1 1 0 "" sInit).1,
    (c7_amended envC7 "q" [] 1 1 0 "" sInit).2 outC7 rfl⟩

/-! ## C8 — merge dedup: value equality for strings, reference identity for objects -/

/-- **C8** (amended): in the merge step, `learnings`, `visitedUrls` and
`weightedLearnings` are each the concatenation over the branches
deduplicated preserving first-seen order — by string value for `learnings`
and `visitedUrls`, but by JS *object reference* for `weightedLearnings`
(modelled by `JsObj` identity).  Consequently merged `weightedLearnings`
has no duplicate references and keeps exactly the references that occur in
some branch; value-equal entries held by distinct objects are *not*
collapsed (see the counterexample). -/
theorem c8_amended (rs : List BranchResult) :
    (combineResults rs).learnings = dedupFirstSeen ((rs.map (·.learnings)).flatten)
    ∧ (combineResults rs).visitedUrls = dedupFirstSeen ((rs.map (·.visitedUrls)).flatten)
    ∧ (combineResults rs).weightedLearnings
        = dedupFirstSeen ((rs.map (·.weightedLearnings)).flatten)
    ∧ (∀ x, x ∈ (combineResults rs).weightedLearnings
        ↔ x ∈ (rs.map (·.weightedLearnings)).flatten)
    ∧ (combineResults rs).weightedLearnings.Nodup := by
  refine ⟨jsSetDedup_eq_dedupFirstSeen _, jsSetDedup_eq_dedupFirstSeen _,
    jsSetDedup_eq_dedupFirstSeen _, fun x => mem_jsSetDedup x _, nodup_jsSetDedup _⟩

/-- A weighted learning of value `{content := "w", reliability := 1}`
allocated as object 0. -/
def wlA : JsObj LearningWithReliability := ⟨0, ⟨"w", 1⟩⟩

/-- A second, distinct object holding the same value as `wlA`. -/
def wlB : JsObj LearningWithReliability := ⟨1, ⟨"w", 1⟩⟩

/-- A branch result carrying only the given weighted learning. -/
def wlOnlyBranch (w : JsObj LearningWithReliability) : BranchResult :=
  { learnings := [], learningReliabilities := [], visitedUrls := []
    sourceMetadata := [], weightedLearnings := [w] }

/-- **C8** (counterexample): two value-equal weighted-learning entries
arriving from different branches as distinct objects do **not** collapse —
the merged result keeps both, because the `Set` dedup compares object
references, not values. -/
theorem c8_counterexample :
    (combineResults [wlOnlyBranch wlA, wlOnlyBranch wlB]).weightedLearnings = [wlA, wlB]
    ∧ wlA.val = wlB.val
    ∧ wlA ≠ wlB := by
  refine ⟨by decide, by decide, by decide⟩

/-! ## C10 — learningReliabilities are collapsed and dropped -/

/-- Planner query keyed by a query string (goal `"goal " ++ q`). -/
def mkQuery (q : String) : SerpQuery :=
  { query := q, researchGoal := "goal " ++ q, reliabilityThreshold := 0
    isVerificationQuery := false, relatedDirection := none }

/-- Scenario A environment (depth 1, breadth 2): two sibling branches
whose synthesized learnings `"a"` and `"b"` carry the same confidence
`1/2`. -/
def envC10a : Env :=
  { genQueries := fun _ _ _ _ _ => .ok [mkQuery "qa", mkQuery "qb"]
    search := fun _ _ => .ok []
    hostname := fun _ => .error "unused"
    evalReliability := fun _ _ => .error "unused"
    trim := fun c _ => c
    synth := fun q _ _ _ _ =>
      if q = "qa" then
        .ok { learnings := [⟨"a", mkRat 1 2, []⟩], followUpQuestions := [] }
      else
        .ok { learnings := [⟨"b", mkRat 1 2, []⟩], followUpQuestions := [] } }

/-- Scenario B environment (depth 2, breadth 1): the root branch learns
`"a"` with confidence `3/4` and recurses; the child branch learns `"b"`
with confidence `1/4`. -/
def envC10b : Env :=
  { genQueries := fun query _ _ _ _ =>
      .ok [if query = "topic" then mkQuery "qa" else mkQuery "qb"]
    search := fun _ _ => .ok []
    hostname := fun _ => .error "unused"
    evalReliability := fun _ _ => .error "unused"
    trim := fun c _ => c
    synth := fun q _ _ _ _ =>
      if q = "qa" then
        .ok { learnings := [⟨"a", mkRat 3 4, []⟩]
              followUpQuestions := [⟨"f", 1, "r"⟩] }
      else
        .ok { learnings := [⟨"b", mkRat 1 4, []⟩], followUpQuestions := [] } }

/-- **C10**: the returned `learningReliabilities` neither aligns with nor
covers `learnings`.  Scenario A (depth 1): two learnings sharing
confidence `1/2` come back as two learnings but a single set-deduplicated
reliability.  Scenario B (depth 2): the recursion passes only the current
level's confidences down alongside the accumulated learnings, so the final
result pairs `["a", "b"]` with just `[1/4]` — learning `"a"`'s confidence
`3/4` is absent, and the only reliability belongs to the second learning,
not the first. -/
theorem c10_reliabilities_shorter_and_misaligned :
    researchLearnings (deepResearch envC10a 1 (topicInput 2) sInit) = ["a", "b"]
    ∧ researchReliabilities (deepResearch envC10a 1 (topicInput 2) sInit) = [mkRat 1 2]
    ∧ researchLearnings (deepResearch envC10b 2 (topicInput 1) sInit) = ["a", "b"]
    ∧ researchReliabilities (deepResearch envC10b 2 (topicInput 1) sInit) = [mkRat 1 4]
    ∧ mkRat 3 4 ∉ researchReliabilities (deepResearch envC10b 2 (topicInput 1) sInit)
    ∧ (researchReliabilities (deepResearch envC10b 2 (topicInput 1) sInit)).length
        < (researchLearnings (deepResearch envC10b 2 (topicInput 1) sInit)).length := by
  refine ⟨by decide, by decide, by decide, by decide, by decide, by decide⟩

/-! ## C5 — what the top-level caller can receive -/

/-- Environment whose query planner (the generation collaborator of
`generateSerpQueries`) throws. -/
def envC5 : Env :=
  { genQueries := fun _ _ _ _ _ => .error "planner down"
    search := fun _ _ => .error "network down"
    hostname := fun _ => .error "down"
    evalReliability := fun _ _ => .error "down"
    trim := fun c _ => c
    synth := fun _ _ _ _ _ => .error "down" }

/-- **C5** (counterexample): the top-level planning call of `deepResearch`
(`deep-research.ts` line 469) is *not* inside any try/catch — when the
planner collaborator throws, the caller receives a raw exception, not a
`BranchResult`-shaped object. -/
theorem c5_counterexample :
    deepResearch envC5 2 (topicInput 3) sInit = .error "planner down" := by
  decide

/-- **C5** (amended): whenever the *top-level planning call* succeeds, the
caller does receive a `BranchResult`-shaped `.ok` result — branch failures
are all caught per dispatch unit — and if additionally every dispatched
branch fails (or no query was planned), the result is the all-empty branch
result rather than a thrown error.  Only a throw of the top-level planner
itself escapes to the caller (see the counterexample). -/
theorem c5_amended (env : Env) (depth : Nat) (inp : ResearchInput) (s : SState)
    (qs : List SerpQuery)
    (hq : generateSerpQueries env inp.query inp.learnings inp.learningReliabilities
      inp.breadth inp.researchDirections = .ok qs) :
    (∃ br s', deepResearch env depth inp s = .ok (br, s'))
    ∧ ((∀ q ∈ qs, ∀ t, ∃ msg,
          attemptBranch env (recurseAt env depth) depth inp q t = .error msg) →
        deepResearch env depth inp s
          = .ok (emptyBranchResult, incrementPlanned s qs.length)) := by
  rw [deepResearch_eq, researchRound_ok env (recurseAt env depth) depth inp s qs hq]
  refine ⟨⟨_, _, rfl⟩, fun hfail => ?_⟩
  rw [runQueries_all_fail env (recurseAt env depth) depth inp qs
    (incrementPlanned s qs.length) hfail]
  rw [combineResults_all_empty _ (fun r hr => List.eq_of_mem_replicate hr)]

/-- Environment where planning succeeds with one query but the search
collaborator always fails. -/
def envC5x : Env :=
  { genQueries := fun _ _ _ _ _ => .ok [mkQuery "qa"]
    search := fun _ _ => .error "network down"
    hostname := fun _ => .error "down"
    evalReliability := fun _ _ => .error "down"
    trim := fun c _ => c
    synth := fun _ _ _ _ _ => .error "down" }

/-- Witness for the amended C5: one planned query whose search always
fails, at depth 3 — the caller still receives `.ok` with the all-empty
branch result. -/
theorem c5_amended_witness :
    generateSerpQueries envC5x (topicInput 1).query (topicInput 1).learnings
      (topicInput 1).learningReliabilities (topicInput 1).breadth
      (topicInput 1).researchDirections = .ok [mkQuery "qa"]
    ∧ deepResearch envC5x 3 (topicInput 1) sInit
        = .ok (emptyBranchResult, incrementPlanned sInit 1) :=
  ⟨by decide,
    (c5_amended envC5x 3 (topicInput 1) sInit [mkQuery "qa"] (by decide)).2
      (by
        intro q hq t
        rw [List.mem_singleton] at hq
        subst hq
        exact ⟨"network down", rfl⟩)⟩

/-! ## C1 — per-branch failure isolation with surviving siblings -/

/-- **C1**: if, in one planning round, the dispatch unit of query `q`
fails (search, processing or recursion — `hfail` is the caught exception)
while arbitrary sibling queries run before (`pre`) and after (`post`) it,
then `deepResearch` still returns `.ok`; the failed unit contributes
exactly the empty branch result in its slot; and every learning of every
sibling branch result still appears in the merged result. -/
theorem c1_failed_branch_isolated (env : Env) (depth : Nat) (inp : ResearchInput)
    (s : SState) (pre post : List SerpQuery) (q : SerpQuery) (msg : String)
    (rsPre rsPost : List BranchResult) (sPre sPost : SState)
    (hq : generateSerpQueries env inp.query inp.learnings inp.learningReliabilities
      inp.breadth inp.researchDirections = .ok (pre ++ q :: post))
    (hpre : runQueries env (recurseAt env depth) depth inp pre
      (incrementPlanned s (pre ++ q :: post).length) = (rsPre, sPre))
    (hfail : attemptBranch env (recurseAt env depth) depth inp q sPre = .error msg)
    (hpost : runQueries env (recurseAt env depth) depth inp post sPre = (rsPost, sPost)) :
    deepResearch env depth inp s
      = .ok (combineResults (rsPre ++ emptyBranchResult :: rsPost), sPost)
    ∧ ∀ r ∈ rsPre ++ emptyBranchResult :: rsPost, ∀ x ∈ r.learnings,
        x ∈ (combineResults (rsPre ++ emptyBranchResult :: rsPost)).learnings := by
  constructor
  · rw [deepResearch_eq,
      researchRound_ok env (recurseAt env depth) depth inp s (pre ++ q :: post) hq,
      runQueries_append env (recurseAt env depth) depth inp pre (q :: post)
        (incrementPlanned s (pre ++ q :: post).length),
      hpre]
    rw [runQueries_cons_fail env (recurseAt env depth) depth inp q post sPre msg hfail,
      hpost]
  · intro r hr x hx
    exact mem_combineResults_learnings _ r hr x hx

/-- Environment for the C1 witness: the planner emits `qa` and `qb`; the
search collaborator times out for `qa` and succeeds for `qb`; processing
of `qb` yields the learning `"L qb"`. -/
def envC1 : Env :=
  { genQueries := fun _ _ _ _ _ => .ok [mkQuery "qa", mkQuery "qb"]
    search := fun q _ =>
      if q = "qa" then .error "Timeout"
      else .ok [{ url := some "https://x/", markdown := some "doc", title := none }]
    hostname := fun _ => .ok "x"
    evalReliability := fun _ _ => .ok (mkRat 1 2, "ok")
    trim := fun c _ => c
    synth := fun q _ _ _ _ =>
      .ok { learnings := [⟨"L " ++ q, mkRat 1 2, []⟩], followUpQuestions := [] } }

/-- The branch result of the surviving sibling `qb` in the C1 witness
run. -/
def brC1 : BranchResult :=
  { learnings := ["L qb"]
    learningReliabilities := [mkRat 1 2]
    visitedUrls := ["https://x/"]
    sourceMetadata := [⟨"https://x/", none, "x", mkRat 1 2, "ok"⟩]
    weightedLearnings := [⟨0, ⟨"L qb", mkRat 1 2⟩⟩] }

/-- Witness for C1: `qa`'s search times out while sibling `qb` succeeds —
the run returns `.ok`, `qa` contributes the empty branch result, and the
sibling's learning `"L qb"` appears in the merged learnings. -/
theorem c1_witness :
    attemptBranch envC1 (recurseAt envC1 1) 1 (topicInput 2) (mkQuery "qa")
      (incrementPlanned sInit 2) = .error "Timeout"
    ∧ deepResearch envC1 1 (topicInput 2) sInit
        = .ok (combineResults ([] ++ emptyBranchResult :: [brC1]),
               { nextId := 1, plannedQueries := 2 })
    ∧ (∀ r ∈ ([] : List BranchResult) ++ emptyBranchResult :: [brC1],
        ∀ x ∈ r.learnings,
          x ∈ (combineResults ([] ++ emptyBranchResult :: [brC1])).learnings)
    ∧ "L qb" ∈ researchLearnings (deepResearch envC1 1 (topicInput 2) sInit) :=
  ⟨by decide,
    (c1_failed_branch_isolated envC1 1 (topicInput 2) sInit [] [mkQuery "qb"]
      (mkQuery "qa") "Timeout" [] [brC1] (incrementPlanned sInit 2)
      { nextId := 1, plannedQueries := 2 } (by decide) (by decide) (by decide)
      (by decide)).1,
    (c1_failed_branch_isolated envC1 1 (topicInput 2) sInit [] [mkQuery "qb"]
      (mkQuery "qa") "Timeout" [] [brC1] (incrementPlanned sInit 2)
      { nextId := 1, plannedQueries := 2 } (by decide) (by decide) (by decide)
      (by decide)).2,
    by decide⟩

/-! ## C4 — recursion parameters of a dispatch unit -/

theorem except_bind_ok {ε α β : Type} (a : α) (f : α → Except ε β) :
    ((Except.ok a : Except ε α) >>= f) = f a := rfl

/-- **C4**: given a successful search and processing step for query `q`,
a dispatch unit of `deepResearch` at depth `d + 2` (so `depth − 1 > 0`)
performs exactly one recursive `deepResearch` call, at depth `d + 1` and
breadth `⌈breadth/2⌉ = (breadth + 1) / 2`, on the child query string built
from the parent query's research goal and the new follow-up questions; at
depth `1` (so `depth − 1 = 0`) the unit returns its accumulated branch
result without recursing. -/
theorem c4_recursion_parameters (env : Env) (d : Nat) (inp : ResearchInput)
    (q : SerpQuery) (s : SState) (items : List SearchItem) (pr : ProcessedResult)
    (s₁ : SState)
    (hs : env.search q.query (if q.isVerificationQuery then 8 else 5) = .ok items)
    (hp : processSerpResult env q.query items 3 ((inp.breadth + 1) / 2)
      q.reliabilityThreshold q.researchGoal s = .ok (pr, s₁)) :
    attemptBranch env (recurseAt env (d + 2)) (d + 2) inp q s
      = deepResearch env (d + 1)
          { query := nextQueryText q.researchGoal pr.followUpQuestions
            breadth := (inp.breadth + 1) / 2
            learnings := inp.learnings ++ pr.learnings
            learningReliabilities := pr.learningConfidences
            visitedUrls := inp.visitedUrls ++ items.filterMap (·.url)
            weightedLearnings := inp.weightedLearnings ++ pr.weightedLearnings
            researchDirections := followUpDirections q.researchGoal pr
            sourceMetadata := inp.sourceMetadata ++ pr.sourceMetadata } s₁
    ∧ attemptBranch env (recurseAt env 1) 1 inp q s
      = .ok ({ learnings := inp.learnings ++ pr.learnings
               learningReliabilities := pr.learningConfidences
               visitedUrls := inp.visitedUrls ++ items.filterMap (·.url)
               sourceMetadata := inp.sourceMetadata ++ pr.sourceMetadata
               weightedLearnings := inp.weightedLearnings ++ pr.weightedLearnings }, s₁) := by
  constructor
  · simp only [attemptBranch, hs, hp, except_bind_ok]
    rw [if_pos (show 0 < (d + 2) - 1 by omega)]
    rfl
  · simp only [attemptBranch, hs, hp, except_bind_ok]
    rw [if_neg (show ¬ 0 < 1 - 1 by omega)]
    rfl

/-- Environment for the C4 witness: one search document, reliability 1/2,
the synthesis collaborator returns the learning `"L qb"` and the follow-up
question `"f"` with priority 2. -/
def envC4 : Env :=
  { genQueries := fun _ _ _ _ _ => .ok [mkQuery "qb"]
    search := fun _ _ =>
      .ok [{ url := some "https://x/", markdown := some "doc", title := none }]
    hostname := fun _ => .ok "x"
    evalReliability := fun _ _ => .ok (mkRat 1 2, "ok")
    trim := fun c _ => c
    synth := fun q _ _ _ _ =>
      .ok { learnings := [⟨"L " ++ q, mkRat 1 2, []⟩]
            followUpQuestions := [⟨"f", 2, "r"⟩] } }

/-- The search document of the C4 witness run. -/
def itemC4 : SearchItem := { url := some "https://x/", markdown := some "doc", title := none }

/-- The processing result for query `qb` in the C4 witness run. -/
def prC4 : ProcessedResult :=
  { learnings := ["L qb"]
    learningConfidences := [mkRat 1 2]
    followUpQuestions := ["f"]
    followUpPriorities := [2]
    sourceMetadata := [⟨"https://x/", none, "x", mkRat 1 2, "ok"⟩]
    weightedLearnings := [⟨0, ⟨"L qb", mkRat 1 2⟩⟩] }

/-- The state after the processing step of the C4 witness run. -/
def sC4 : SState := { nextId := 1, plannedQueries := 0 }

/-- Witness for C4 at `breadth = 2`: the depth-2 dispatch unit recurses
exactly once at depth 1 and breadth `⌈2/2⌉ = 1` on the child query folding
in the research goal and follow-up `"f"`; the depth-1 dispatch unit
returns the accumulated result without recursing. -/
theorem c4_witness :
    envC4.search (mkQuery "qb").query
      (if (mkQuery "qb").isVerificationQuery then 8 else 5) = .ok [itemC4]
    ∧ processSerpResult envC4 (mkQuery "qb").query [itemC4] 3
        (((topicInput 2).breadth + 1) / 2) (mkQuery "qb").reliabilityThreshold
        (mkQuery "qb").researchGoal sInit = .ok (prC4, sC4)
    ∧ attemptBranch envC4 (recurseAt envC4 2) 2 (topicInput 2) (mkQuery "qb") sInit
        = deepResearch envC4 1
            { query := nextQueryText (mkQuery "qb").researchGoal prC4.followUpQuestions
              breadth := ((topicInput 2).breadth + 1) / 2
              learnings := (topicInput 2).learnings ++ prC4.learnings
              learningReliabilities := prC4.learningConfidences
              visitedUrls := (topicInput 2).visitedUrls ++ [itemC4].filterMap (·.url)
              weightedLearnings := (topicInput 2).weightedLearnings ++ prC4.weightedLearnings
              researchDirections := followUpDirections (mkQuery "qb").researchGoal prC4
              sourceMetadata := (topicInput 2).sourceMetadata ++ prC4.sourceMetadata } sC4
    ∧ attemptBranch envC4 (recurseAt envC4 1) 1 (topicInput 2) (mkQuery "qb") sInit
        = .ok ({ learnings := (topicInput 2).learnings ++ prC4.learnings
                 learningReliabilities := prC4.learningConfidences
                 visitedUrls := (topicInput 2).visitedUrls ++ [itemC4].filterMap (·.url)
                 sourceMetadata := (topicInput 2).sourceMetadata ++ prC4.sourceMetadata
                 weightedLearnings := (topicInput 2).weightedLearnings ++ prC4.weightedLearnings },
               sC4) :=
  ⟨by decide, by decide,
    (c4_recursion_parameters envC4 0 (topicInput 2) (mkQuery "qb") sInit [itemC4]
      prC4 sC4 (by decide) (by decide)).1,
    (c4_recursion_parameters envC4 0 (topicInput 2) (mkQuery "qb") sInit [itemC4]
      prC4 sC4 (by decide) (by decide)).2⟩

/-! ## C9 — total planned queries across the tree -/

theorem except_bind_error {ε α β : Type} (e : ε) (f : α → Except ε β) :
    ((Except.error e : Except ε α) >>= f) = (Except.error e : Except ε β) := rfl

/-- The hypothesis of the query-budget claim: the generation collaborator
behind the planner never returns more queries than requested. -/
def PlannerBounded (env : Env) : Prop :=
  ∀ query ls lrs n dirs qs,
    env.genQueries query ls lrs n dirs = .ok qs → qs.length ≤ n

theorem generateSerpQueries_length_le (env : Env) (H : PlannerBounded env)
    (query : String) (ls : List String) (lrs : List Rat) (n : Nat)
    (dirs : List ResearchDirection) (qs : List SerpQuery)
    (h : generateSerpQueries env query ls lrs n dirs = .ok qs) : qs.length ≤ n := by
  unfold generateSerpQueries at h
  cases hg : env.genQueries query ls lrs n dirs with
  | error msg =>
    rw [hg, except_bind_error] at h
    exact Except.noConfusion h
  | ok qs₀ =>
    rw [hg, except_bind_ok] at h
    cases Except.ok.inj h
    rw [List.length_map]
    exact H query ls lrs n dirs qs₀ hg

theorem processSerpResult_planned (env : Env) (query : String)
    (result : List SearchItem) (nL nF : Nat) (thr : Rat) (goal : String)
    (s : SState) (r : ProcessedResult × SState)
    (h : processSerpResult env query result nL nF thr goal s = .ok r) :
    r.2.plannedQueries = s.plannedQueries := by
  unfold processSerpResult at h
  cases hsy : env.synth query (synthPromptContents env query result) nL nF goal with
  | error msg =>
    rw [hsy, except_bind_error] at h
    exact Except.noConfusion h
  | ok out =>
    rw [hsy, except_bind_ok] at h
    cases Except.ok.inj h
    rfl

theorem attemptBranch_planned (env : Env)
    (recurse : ResearchInput → SState → Except String (BranchResult × SState))
    (depth : Nat) (inp : ResearchInput) (q : SerpQuery) (s : SState)
    (r : BranchResult × SState) (K : Nat)
    (Hrec : ∀ inp' t r', inp'.breadth = (inp.breadth + 1) / 2 →
      recurse inp' t = .ok r' → r'.2.plannedQueries ≤ t.plannedQueries + K)
    (h : attemptBranch env recurse depth inp q s = .ok r) :
    r.2.plannedQueries ≤ s.plannedQueries + (if 0 < depth - 1 then K else 0) := by
  cases hse : env.search q.query (if q.isVerificationQuery then 8 else 5) with
  | error msg =>
    have hek : attemptBranch env recurse depth inp q s = .error msg := by
      simp only [attemptBranch, hse, except_bind_error]
    rw [hek] at h
    exact Except.noConfusion h
  | ok items =>
    cases hps : processSerpResult env q.query items 3 ((inp.breadth + 1) / 2)
        q.reliabilityThreshold q.researchGoal s with
    | error msg =>
      have hek : attemptBranch env recurse depth inp q s = .error msg := by
        simp only [attemptBranch, hse, hps, except_bind_ok, except_bind_error]
      rw [hek] at h
      exact Except.noConfusion h
    | ok prs =>
      obtain ⟨pr, s₁⟩ := prs
      have hpl : s₁.plannedQueries = s.plannedQueries :=
        processSerpResult_planned env q.query items 3 ((inp.breadth + 1) / 2)
          q.reliabilityThreshold q.researchGoal s (pr, s₁) hps
      have heq : attemptBranch env recurse depth inp q s
          = (if 0 < depth - 1 then
              recurse
                { query := nextQueryText q.researchGoal pr.followUpQuestions
                  breadth := (inp.breadth + 1) / 2
                  learnings := inp.learnings ++ pr.learnings
                  learningReliabilities := pr.learningConfidences
                  visitedUrls := inp.visitedUrls ++ items.filterMap (·.url)
                  weightedLearnings := inp.weightedLearnings ++ pr.weightedLearnings
                  researchDirections := followUpDirections q.researchGoal pr
                  sourceMetadata := inp.sourceMetadata ++ pr.sourceMetadata } s₁
            else
              .ok ({ learnings := inp.learnings ++ pr.learnings
                     learningReliabilities := pr.learningConfidences
                     visitedUrls := inp.visitedUrls ++ items.filterMap (·.url)
                     sourceMetadata := inp.sourceMetadata ++ pr.sourceMetadata
                     weightedLearnings := inp.weightedLearnings ++ pr.weightedLearnings },
                   s₁)) := by
        simp only [attemptBranch, hse, hps, except_bind_ok]
        rfl
      rw [heq] at h
      split at h
      case isTrue hd =>
        rw [if_pos hd]
        have hb := Hrec _ s₁ r rfl h
        rw [hpl] at hb
        exact hb
      case isFalse hd =>
        rw [if_neg hd]
        cases Except.ok.inj h
        simp [hpl]

theorem runQueries_planned (env : Env)
    (recurse : ResearchInput → SState → Except String (BranchResult × SState))
    (depth : Nat) (inp : ResearchInput) (K : Nat)
    (Hrec : ∀ inp' t r', inp'.breadth = (inp.breadth + 1) / 2 →
      recurse inp' t = .ok r' → r'.2.plannedQueries ≤ t.plannedQueries + K) :
    ∀ (qs : List SerpQuery) (s : SState),
      (runQueries env recurse depth inp qs s).2.plannedQueries
        ≤ s.plannedQueries + qs.length * (if 0 < depth - 1 then K else 0)
  | [], s => by simp [runQueries]
  | q :: qs, s => by
    simp only [runQueries]
    have h1 : (runQuery env recurse depth inp q s).2.plannedQueries
        ≤ s.plannedQueries + (if 0 < depth - 1 then K else 0) := by
      unfold runQuery
      cases hab : attemptBranch env recurse depth inp q s with
      | ok rr =>
        exact attemptBranch_planned env recurse depth inp q s rr K Hrec hab
      | error msg => simp
    have h2 := runQueries_planned env recurse depth inp K Hrec qs
      (runQuery env recurse depth inp q s).2
    calc (runQueries env recurse depth inp qs (runQuery env recurse depth inp q s).2).2.plannedQueries
        ≤ (runQuery env recurse depth inp q s).2.plannedQueries
            + qs.length * (if 0 < depth - 1 then K else 0) := h2
      _ ≤ (s.plannedQueries + (if 0 < depth - 1 then K else 0))
            + qs.length * (if 0 < depth - 1 then K else 0) := Nat.add_le_add_right h1 _
      _ = s.plannedQueries + (q :: qs).length * (if 0 < depth - 1 then K else 0) := by
          rw [List.length_cons]
          ring

theorem researchRound_planned (env : Env) (H : PlannerBounded env)
    (R : ResearchInput → SState → Except String (BranchResult × SState))
    (depth : Nat) (inp : ResearchInput) (s : SState) (r : BranchResult × SState)
    (K : Nat)
    (Hrec : ∀ inp' t r', inp'.breadth = (inp.breadth + 1) / 2 →
      R inp' t = .ok r' → r'.2.plannedQueries ≤ t.plannedQueries + K)
    (h : researchRound env R depth inp s = .ok r) :
    r.2.plannedQueries ≤ s.plannedQueries + inp.breadth
      + inp.breadth * (if 0 < depth - 1 then K else 0) := by
  cases hq : generateSerpQueries env inp.query inp.learnings inp.learningReliabilities
      inp.breadth inp.researchDirections with
  | error msg =>
    rw [researchRound_error env R depth inp s msg hq] at h
    exact Except.noConfusion h
  | ok qs =>
    rw [researchRound_ok env R depth inp s qs hq] at h
    cases Except.ok.inj h
    have hlen : qs.length ≤ inp.breadth :=
      generateSerpQueries_length_le env H inp.query inp.learnings
        inp.learningReliabilities inp.breadth inp.researchDirections qs hq
    have hb := runQueries_planned env R depth inp K Hrec qs (incrementPlanned s qs.length)
    calc (runQueries env R depth inp qs (incrementPlanned s qs.length)).2.plannedQueries
        ≤ (s.plannedQueries + qs.length)
            + qs.length * (if 0 < depth - 1 then K else 0) := hb
      _ ≤ (s.plannedQueries + inp.breadth)
            + inp.breadth * (if 0 < depth - 1 then K else 0) :=
          Nat.add_le_add (Nat.add_le_add_left hlen _) (Nat.mul_le_mul_right _ hlen)
      _ = s.plannedQueries + inp.breadth
            + inp.breadth * (if 0 < depth - 1 then K else 0) := rfl

/-- The recurrence bounding how many queries the whole recursion tree can
plan: each node plans at most `breadth` queries, and (when the depth
allows a recursion step) each of them spawns a subtree at depth
`depth − 1` and breadth `⌈breadth/2⌉`. -/
def maxPlanned : Nat → Nat → Nat
  | 0, b => b
  | 1, b => b
  | d + 2, b => b + b * maxPlanned (d + 1) ((b + 1) / 2)

theorem deepResearch_planned (env : Env) (H : PlannerBounded env) :
    ∀ (depth : Nat) (inp : ResearchInput) (s : SState) (r : BranchResult × SState),
      deepResearch env depth inp s = .ok r →
      r.2.plannedQueries ≤ s.plannedQueries + maxPlanned depth inp.breadth := by
  intro depth
  induction depth with
  | zero =>
    intro inp s r h
    rw [deepResearch_eq] at h
    have Hrec : ∀ (inp' : ResearchInput) (t : SState) (r' : BranchResult × SState),
        inp'.breadth = (inp.breadth + 1) / 2 →
        recurseAt env 0 inp' t = .ok r' →
        r'.2.plannedQueries ≤ t.plannedQueries + 0 := by
      intro inp' t r' _ hok
      exact Except.noConfusion hok
    have hb := researchRound_planned env H (recurseAt env 0) 0 inp s r 0 Hrec h
    simpa [maxPlanned] using hb
  | succ d ih =>
    intro inp s r h
    rw [deepResearch_eq] at h
    have Hrec : ∀ (inp' : ResearchInput) (t : SState) (r' : BranchResult × SState),
        inp'.breadth = (inp.breadth + 1) / 2 →
        recurseAt env (d + 1) inp' t = .ok r' →
        r'.2.plannedQueries ≤ t.plannedQueries + maxPlanned d ((inp.breadth + 1) / 2) := by
      intro inp' t r' hbr hok
      have hle := ih inp' t r' hok
      rw [hbr] at hle
      exact hle
    have hb := researchRound_planned env H (recurseAt env (d + 1)) (d + 1) inp s r
      (maxPlanned d ((inp.breadth + 1) / 2)) Hrec h
    refine hb.trans ?_
    rw [Nat.add_assoc]
    refine Nat.add_le_add_left ?_ s.plannedQueries
    cases d with
    | zero => simp [maxPlanned]
    | succ e => simp [maxPlanned]

/-- **C9** (amended): under the hypothesis that the planner's collaborator
returns at most the requested number of queries at every node, the total
number of queries planned across the whole recursion tree is at most
`breadth · 2 ^ depth` for every `depth ∈ [1,5]` and `breadth ∈ [1,5]` —
*except* at `breadth = 5, depth = 3`, where the worst case is 50 planned
queries against a claimed bound of 40 (see the counterexample). -/
theorem c9_amended (env : Env) (H : PlannerBounded env) (d b : Nat)
    (inp : ResearchInput) (s : SState) (hd1 : 1 ≤ d) (hd5 : d ≤ 5)
    (hb1 : 1 ≤ b) (hb5 : b ≤ 5) (hnot : ¬ (b = 5 ∧ d = 3))
    (hbr : inp.breadth = b) :
    plannedAfter (deepResearch env d inp s) s ≤ s.plannedQueries + b * 2 ^ d := by
  have hmax : maxPlanned d b ≤ b * 2 ^ d := by
    interval_cases d <;> interval_cases b <;>
      first
        | decide
        | exact absurd ⟨rfl, rfl⟩ hnot
  cases heq : deepResearch env d inp s with
  | error msg =>
    simp only [plannedAfter]
    exact Nat.le_add_right _ _
  | ok r =>
    have hle := deepResearch_planned env H d inp s r heq
    rw [hbr] at hle
    simp only [plannedAfter]
    exact hle.trans (Nat.add_le_add_left hmax _)

/-- Environment exercising the worst case: the planner collaborator
returns exactly the requested number of queries and every search,
evaluation and synthesis call succeeds — the whole tree expands. -/
def envMax : Env :=
  { genQueries := fun _ _ _ n _ => .ok (List.replicate n (mkQuery "q"))
    search := fun _ _ =>
      .ok [{ url := some "https://x/", markdown := some "doc", title := none }]
    hostname := fun _ => .ok "x"
    evalReliability := fun _ _ => .ok (mkRat 1 2, "ok")
    trim := fun c _ => c
    synth := fun _ _ _ _ _ =>
      .ok { learnings := [⟨"L", mkRat 1 2, []⟩]
            followUpQuestions := [⟨"f", 2, "r"⟩] } }

theorem envMax_bounded : PlannerBounded envMax := by
  intro query ls lrs n dirs qs h
  cases Except.ok.inj h
  simp

/-- **C9** (counterexample): `envMax` satisfies the planner-bound
hypothesis, yet at `depth = 3`, `breadth = 5` the run plans 50 queries —
more than the claimed bound `5 · 2³ = 40`. -/
theorem c9_counterexample :
    PlannerBounded envMax
    ∧ plannedAfter (deepResearch envMax 3 (topicInput 5) sInit) sInit = 50
    ∧ 5 * 2 ^ 3 < 50 :=
  ⟨envMax_bounded, by decide, by decide⟩

/-- Witness for the amended C9 at `depth = 2`, `breadth = 5`: the planned
total stays within `5 · 2² = 20`. -/
theorem c9_amended_witness :
    PlannerBounded envMax
    ∧ plannedAfter (deepResearch envMax 2 (topicInput 5) sInit) sInit
        ≤ sInit.plannedQueries + 5 * 2 ^ 2 :=
  ⟨envMax_bounded,
    c9_amended envMax envMax_bounded 2 5 (topicInput 5) sInit (by decide) (by decide)
      (by decide) (by decide) (by decide) rfl⟩

end DeepResearchMcp
